import Mathlib

/-!
A verification development of the search-index flusher
(`crates/database/src/index_workers/search_flusher.rs`): a shallow embedding of
the backfill scanner (`needs_backfill`), the build planner and segment-builder
driver (`build_multipart_segment` / `build_multipart_segment_on_thread`), and
the result assembler, together with theorems about cursor accounting, byte
budgeting, index classification and result assembly.

Machine integers (`u64`/`usize` sizes, timestamps) are modelled as `Nat`:
the code only adds document-size estimates and subtracts timestamps that are
checked to be ordered, so no overflow-sensitive arithmetic occurs.  The
kind-specific `SearchIndex` capability (schema, size estimation, building,
uploads, statistics) and the database/storage collaborators are oracles:
fields of an environment record, exactly as the engine consumes them through
trait methods.
-/

namespace SearchFlusher

/-- A document as the scanner sees it: its id in the by-id index order and the
value of `estimate_document_size` for it (the estimate is a pure function of
the document, so it is carried as a field). -/
structure Doc where
  id : Nat
  size : Nat
deriving DecidableEq

/-- One element of `stream_documents_in_table`: `anyhow::Result<(Doc, Timestamp)>`. -/
inductive StreamElem where
  | ok (doc : Doc) (ts : Nat)
  | err
deriving DecidableEq

/-- Whether a stream element is a successfully read document. -/
def StreamElem.isOk : StreamElem → Bool
  | .ok _ _ => true
  | .err => false

/-- `MultiSegmentBackfillResult` from `index_workers/mod.rs` as used by the
flusher: the cursor and completion flag of one incremental run. -/
structure MultiSegmentBackfillResult where
  new_cursor : Option Nat
  is_backfill_complete : Bool
deriving DecidableEq

/-- `MultipartBuildType`: how documents are fetched for this segment. -/
inductive MultipartBuildType where
  | Partial (last_ts : Nat)
  | IncrementalComplete (cursor : Option Nat) (backfill_snapshot_ts : Nat)
deriving DecidableEq

/-- `BackfillState` of a backfilling index (segment type `σ` is opaque). -/
structure BackfillState (σ : Type) where
  backfill_snapshot_ts : Option Nat
  cursor : Option Nat
  segments : List σ
deriving DecidableEq

/-- `SnapshotData`: an unrecognized legacy format or a multi-segment set. -/
inductive SnapshotData (σ : Type) where
  | Unknown
  | MultiSegment (parts : List σ)
deriving DecidableEq

/-- `SearchSnapshot`: a consistent snapshot descriptor of a built index. -/
structure SearchSnapshot (σ : Type) where
  ts : Nat
  data : SnapshotData σ
deriving DecidableEq

/-- `SearchOnDiskState`: the persisted state of one index. -/
inductive SearchOnDiskState (σ : Type) where
  | Backfilling (b : BackfillState σ)
  | Backfilled (s : SearchSnapshot σ)
  | SnapshottedAt (s : SearchSnapshot σ)
deriving DecidableEq

/-- `BuildReason`: the classifier's verdict. -/
inductive BuildReason where
  | Backfilling
  | VersionMismatch
  | TooOld
  | TooLarge
deriving DecidableEq

/-- Rust's `Option::or`: the left value when present, otherwise the right. -/
def orOpt {α : Type} : Option α → Option α → Option α
  | some a, _ => some a
  | none, b => b

/-- The scanner's environment: the step timestamp fixed by the read
transaction, the configuration knobs, and the external collaborators
(`is_version_current`, `get_fast_forward_ts`, `get_index_sizes`) consulted by
`needs_backfill`, indexed here by the index id. -/
structure ScanEnv (σ : Type) where
  stepTs : Nat
  maxCheckpointAge : Nat
  softLimit : Nat
  isVersionCurrent : SearchSnapshot σ → Bool
  fastForwardTs : Nat → Nat → Nat
  indexSize : Nat → Nat

/-- The classification of one index record inside `needs_backfill`
(`search_flusher.rs` lines 113-149): `Backfilling` states always build;
`Backfilled`/`SnapshottedAt` with a stale format version are a
`VersionMismatch`; otherwise the fast-forward timestamp must not exceed the
step timestamp (hard error), and the age/size flags decide, with `TooLarge`
taking precedence over `TooOld` (`too_large.or(too_old)`). -/
def needsBackfillOne {σ : Type} (env : ScanEnv σ) (indexId : Nat)
    (state : SearchOnDiskState σ) : Except Unit (Option BuildReason) :=
  match state with
  | .Backfilling _ => .ok (some .Backfilling)
  | .Backfilled snap | .SnapshottedAt snap =>
    if env.isVersionCurrent snap = false then
      .ok (some .VersionMismatch)
    else
      let ts := env.fastForwardTs snap.ts indexId
      let size := env.indexSize indexId
      if ts ≤ env.stepTs then
        let age := env.stepTs - ts
        let tooOld :=
          if env.maxCheckpointAge ≤ age ∧ 0 < size then some BuildReason.TooOld else none
        let tooLarge := if env.softLimit < size then some BuildReason.TooLarge else none
        .ok (orOpt tooLarge tooOld)
      else
        .error ()

/-- The scan loop of `needs_backfill` over all (already kind-matched) index
records: classify each in order, keep those that need work, and abort the
whole scan on the first error (nothing partial is ever returned). -/
def needsBackfillScan {σ : Type} (env : ScanEnv σ) :
    List (Nat × SearchOnDiskState σ) → Except Unit (List (Nat × BuildReason))
  | [] => .ok []
  | (indexId, state) :: rest => do
    let r ← needsBackfillOne env indexId state
    let tail ← needsBackfillScan env rest
    match r with
    | some reason => .ok ((indexId, reason) :: tail)
    | none => .ok tail

/-- The cursor/byte-budget accounting that `build_multipart_segment_on_thread`
wraps around the backfill document stream (`search_flusher.rs` lines 367-388,
the `.scan(0_u64, ...)` combinator).  State per element: the running
`total_size`, the mutable `new_cursor`, and (implicitly) the
`is_backfill_complete` flag.  A successful element adds its estimated size to
the total and proposes its id as cursor; an error element changes neither.  If
the (possibly updated) total is within `threshold`
(`incremental_multipart_threshold_bytes`), the cursor is committed and the
element yielded; otherwise the flag flips to `false` and the stream ends
without yielding the over-budget element.  Returns the yielded elements, the
final `new_cursor`, and `is_backfill_complete`. -/
def runScan (threshold : Nat) : Nat → Option Nat → List StreamElem →
    List StreamElem × Option Nat × Bool
  | _, newCursor, [] => ([], newCursor, true)
  | totalSize, newCursor, .ok doc dts :: rest =>
    if totalSize + doc.size ≤ threshold then
      let r := runScan threshold (totalSize + doc.size) (some doc.id) rest
      (.ok doc dts :: r.1, r.2)
    else
      ([], newCursor, false)
  | totalSize, newCursor, .err :: rest =>
    if totalSize ≤ threshold then
      let r := runScan threshold totalSize newCursor rest
      (.err :: r.1, r.2)
    else
      ([], newCursor, false)

/-- Sum of `estimate_document_size` over the successfully read documents of a
stream fragment (error elements contribute nothing, as in the code). -/
def okSum : List StreamElem → Nat
  | [] => 0
  | .ok d _ :: rest => d.size + okSum rest
  | .err :: rest => okSum rest

/-- The last successfully read document of a stream fragment, if any. -/
def lastOk : List StreamElem → Option Doc
  | [] => none
  | .ok d _ :: rest =>
    match lastOk rest with
    | some d' => some d'
    | none => some d
  | .err :: rest => lastOk rest

/-- `true` when the document id strictly follows the cursor in by-id order
(`none` means "start at the beginning", before every id). -/
def cursorLtB : Option Nat → Nat → Bool
  | none, _ => true
  | some c, i => Nat.blt c i

/-- `true` when a stream element is either an error or a document whose id
strictly follows the cursor; `stream_documents_in_table` guarantees this for
every element it produces after `cursor`. -/
def streamOkAfter (cursor : Option Nat) : StreamElem → Bool
  | .ok d _ => cursorLtB cursor d.id
  | .err => true

/-- The flusher's environment for one build job: the fresh transaction's begin
timestamp, the configuration knobs, and the external collaborators of
`build_multipart_segment` — the database streams, the kind-specific
`SearchIndex` capability (download/build/upload/statistics), and the
fast-forward metadata (the job's index id is fixed, so `fastForwardTs` takes
only the snapshot timestamp).  `σ` = `Segment`, `ν` = `NewSegment`,
`μ` = mutable previous segments, `S` = `Statistics`. -/
structure BuildEnv (σ ν μ S : Type) where
  beginTs : Nat
  fastForwardTs : Nat → Nat
  streamDocs : Option Nat → Nat → List StreamElem
  rangeDocs : Nat → Nat → List StreamElem
  downloadPrev : List σ → μ
  buildDiskIndex : List StreamElem → μ → Option ν × μ
  uploadPrev : μ → List σ
  uploadNew : ν → σ
  segmentId : σ → Nat
  statistics : σ → Except Unit S
  addStats : S → S → S
  emptyStats : S
  threshold : Nat

/-- `MultiSegmentBuildResult`: what the build thread hands back. -/
structure MultiSegmentBuildResult (σ ν : Type) where
  new_segment : Option ν
  updated_previous_segments : List σ
  backfill_result : Option MultiSegmentBackfillResult
deriving DecidableEq

/-- Modelled from the spec: `RepeatableTimestamp::prior_ts` (crate `common`,
not under `src/`) repackages a timestamp known to be at most the receiver as a
repeatable timestamp, and errors otherwise ("Require `ts ≤ step_ts`; violating
this is a hard error"). -/
def priorTs (cap ts : Nat) : Except Unit Nat :=
  if ts ≤ cap then .ok ts else .error ()

/-- The planning phase of `build_multipart_segment` (`search_flusher.rs` lines
177-222): from the job's on-disk state, the previous segments, the
`MultipartBuildType`, and the (possibly re-anchored) build timestamp `new_ts`.
A backfilling index anchors `new_ts` to its stored `backfill_snapshot_ts` when
one is set; an unknown snapshot format rebuilds from scratch; a multi-segment
snapshot plans an incremental catch-up from the fast-forward timestamp. -/
def planBuild {σ ν μ S : Type} (env : BuildEnv σ ν μ S) (state : SearchOnDiskState σ) :
    Except Unit (List σ × MultipartBuildType × Nat) :=
  match state with
  | .Backfilling bf =>
    (match bf.backfill_snapshot_ts with
      | some ts => priorTs env.beginTs ts
      | none => .ok env.beginTs).map
      fun anchor => (bf.segments, .IncrementalComplete bf.cursor anchor, anchor)
  | .Backfilled snap | .SnapshottedAt snap =>
    match snap.data with
    | .Unknown => .ok ([], .IncrementalComplete none env.beginTs, env.beginTs)
    | .MultiSegment parts =>
      (priorTs env.beginTs (env.fastForwardTs snap.ts)).map
        fun ts => (parts, .Partial ts, env.beginTs)

/-- `build_multipart_segment_on_thread` (`search_flusher.rs` lines 319-425):
fetch the documents (a commit-order range stream for `Partial`, the
budget-scanned by-id stream for `IncrementalComplete`), download the previous
segments, run the kind-specific builder (which may mutate them), upload the
mutated previous segments, and attach a `MultiSegmentBackfillResult` exactly
when the build type was `IncrementalComplete`.  The builder consumes the
stream in full (spec §4.1); the rate limiter does not affect values. -/
def buildOnThread {σ ν μ S : Type} (env : BuildEnv σ ν μ S)
    (buildType : MultipartBuildType) (snapshotTs : Nat) (previousSegments : List σ) :
    MultiSegmentBuildResult σ ν :=
  match buildType with
  | .Partial lastTs =>
    let documents := env.rangeDocs lastTs snapshotTs
    let built := env.buildDiskIndex documents (env.downloadPrev previousSegments)
    ⟨built.1, env.uploadPrev built.2, none⟩
  | .IncrementalComplete cursor backfillTs =>
    let scanned := runScan env.threshold 0 none (env.streamDocs cursor backfillTs)
    let built := env.buildDiskIndex scanned.1 (env.downloadPrev previousSegments)
    ⟨built.1, env.uploadPrev built.2, some ⟨scanned.2.1, scanned.2.2⟩⟩

/-- `IndexBuildResult`: the structured result handed to the commit path. -/
structure IndexBuildResult (σ S : Type) where
  snapshot_ts : Nat
  data : SnapshotData σ
  total_stats : S
  new_segment_stats : Option S
  new_segment_id : Option Nat
  backfill_result : Option MultiSegmentBackfillResult
deriving DecidableEq

/-- `SegmentStatistics::add` lifted over fallible statistics, as the reduce
step of the assembler folds it (the first error wins). -/
def addStatsE {S : Type} (add : S → S → S) :
    Except Unit S → Except Unit S → Except Unit S
  | .ok a, .ok b => .ok (add a b)
  | .error e, _ => .error e
  | .ok _, .error e => .error e

/-- Rust's `Iterator::reduce`: `none` on an empty list, otherwise the left
fold of the tail starting from the head. -/
def reduceList {α : Type} (f : α → α → α) : List α → Option α
  | [] => none
  | x :: xs => some (xs.foldl f x)

/-- The statistics aggregation of the result assembler (`search_flusher.rs`
lines 255-264): map each output segment to its statistics, reduce with
`SegmentStatistics::add`, propagate any error, and default to the empty
statistics for an empty segment set. -/
def computeTotalStats {σ ν μ S : Type} (env : BuildEnv σ ν μ S) (parts : List σ) :
    Except Unit S :=
  match reduceList (addStatsE env.addStats) (parts.map env.statistics) with
  | none => .ok env.emptyStats
  | some r => r

/-- All statistics of a list of fallible values, collected when every one
succeeded (`none` as soon as one fails). -/
def collectOk {S : Type} : List (Except Unit S) → Option (List S)
  | [] => some []
  | .ok v :: rest => (collectOk rest).map (v :: ·)
  | .error _ :: _ => none

/-- `build_multipart_segment` (`search_flusher.rs` lines 170-275): plan from
the on-disk state, run the build on the worker thread, upload the new segment
when one was built, compute its id and statistics, append it after the updated
previous segments, aggregate the total statistics, and package the result with
the (possibly re-anchored) snapshot timestamp. -/
def buildMultipartSegment {σ ν μ S : Type} (env : BuildEnv σ ν μ S)
    (state : SearchOnDiskState σ) : Except Unit (IndexBuildResult σ S) :=
  match planBuild env state with
  | .error e => .error e
  | .ok plan =>
    let m := buildOnThread env plan.2.1 plan.2.2 plan.1
    let newSegment := m.new_segment.map env.uploadNew
    match (match newSegment with
      | some s => (env.statistics s).map some
      | none => .ok none : Except Unit (Option S)) with
    | .error e => .error e
    | .ok newSegmentStats =>
      let parts := m.updated_previous_segments ++ newSegment.toList
      match computeTotalStats env parts with
      | .error e => .error e
      | .ok totalStats =>
        .ok ⟨plan.2.2, .MultiSegment parts, totalStats, newSegmentStats,
          newSegment.map env.segmentId, m.backfill_result⟩

/-! Concrete instantiations used to exercise the theorems on closed inputs:
segments, new segments and statistics are numbers, mutable previous segments a
list of numbers. -/

/-- A concrete build environment: a three-element backfill stream (two
documents around one transient read error), identity segment handling, numeric
statistics, and a 10-byte incremental budget. -/
def envW : BuildEnv Nat Nat (List Nat) Nat where
  beginTs := 100
  fastForwardTs := fun ts => ts
  streamDocs := fun _ _ => [.ok ⟨5, 3⟩ 1, .err, .ok ⟨7, 4⟩ 2]
  rangeDocs := fun _ _ => []
  downloadPrev := fun l => l
  buildDiskIndex := fun _ m => (some 42, m)
  uploadPrev := fun m => m
  uploadNew := fun n => n + 1
  segmentId := fun s => s
  statistics := fun s => .ok s
  addStats := Nat.add
  emptyStats := 0
  threshold := 10

/-- A build environment whose backfill stream holds a single read error and no
document at all. -/
def envE : BuildEnv Nat Nat (List Nat) Nat where
  beginTs := 100
  fastForwardTs := fun ts => ts
  streamDocs := fun _ _ => [.err]
  rangeDocs := fun _ _ => []
  downloadPrev := fun l => l
  buildDiskIndex := fun _ m => (none, m)
  uploadPrev := fun m => m
  uploadNew := fun n => n + 1
  segmentId := fun s => s
  statistics := fun s => .ok s
  addStats := Nat.add
  emptyStats := 0
  threshold := 10

/-- A build environment exhibiting the byte-budget boundary: budget 10, and a
backfill stream with documents of sizes 10 and then 1, so the first document
fills the budget exactly and the second trips it. -/
def envC2 : BuildEnv Nat Nat (List Nat) Nat where
  beginTs := 100
  fastForwardTs := fun ts => ts
  streamDocs := fun _ _ => [.ok ⟨1, 10⟩ 0, .ok ⟨2, 1⟩ 0]
  rangeDocs := fun _ _ => []
  downloadPrev := fun l => l
  buildDiskIndex := fun _ m => (some 42, m)
  uploadPrev := fun m => m
  uploadNew := fun n => n + 1
  segmentId := fun s => s
  statistics := fun s => .ok s
  addStats := Nat.add
  emptyStats := 0
  threshold := 10

/-- A concrete scanner environment: step timestamp 1000, checkpoint age
threshold 100, size soft limit 50, version current exactly for snapshots with
a positive timestamp, fast-forward the snapshot timestamp itself, and the
index id doubling as its ready size. -/
def envS : ScanEnv Nat where
  stepTs := 1000
  maxCheckpointAge := 100
  softLimit := 50
  isVersionCurrent := fun snap => Nat.blt 0 snap.ts
  fastForwardTs := fun ts _ => ts
  indexSize := fun indexId => indexId

/-- A version-current multi-segment snapshot with two previous segments. -/
def stSnap : SearchOnDiskState Nat := .SnapshottedAt ⟨90, .MultiSegment [1, 2]⟩

/-- The build result `envW` produces from `stSnap`: a Partial catch-up that
keeps segments 1 and 2, appends the uploaded new segment 43, and totals the
numeric statistics. -/
def rSnap : IndexBuildResult Nat Nat :=
  ⟨100, .MultiSegment [1, 2, 43], 46, some 43, some 43, none⟩

/-- A backfilling state with a stored anchor timestamp 80 and cursor 3. -/
def bfW : BackfillState Nat := ⟨some 80, some 3, [1, 2]⟩

/-! Theorems.  First the classifier (`needs_backfill`), then the stream
accounting, then the composed build. -/

/-- A single classification error anywhere in the index list aborts the whole
scan: `needs_backfill` never returns a partial job list. -/
theorem needsBackfillScan_error_of_mem {σ : Type} (env : ScanEnv σ) :
    ∀ (indexes : List (Nat × SearchOnDiskState σ)) (indexId : Nat)
      (state : SearchOnDiskState σ),
      (indexId, state) ∈ indexes →
      needsBackfillOne env indexId state = .error () →
      needsBackfillScan env indexes = .error () := by
  intro indexes
  induction indexes with
  | nil => intro _ _ h _; simp at h
  | cons x rest ih =>
    intro indexId state hmem herr
    rcases List.mem_cons.mp hmem with h | h
    · cases x
      cases h
      simp only [needsBackfillScan, herr]
      rfl
    · obtain ⟨xid, xst⟩ := x
      cases hone : needsBackfillOne env xid xst with
      | error e =>
        cases e
        simp only [needsBackfillScan, hone]
        rfl
      | ok r =>
        simp only [needsBackfillScan, hone, ih indexId state h herr]
        rfl

/-- C4: for every index that `needs_backfill` evaluates with both the TooLarge
condition (size above the soft limit) and the TooOld condition (age at least
the max checkpoint age, positive size) holding, the emitted build reason is
`TooLarge`, not `TooOld`. -/
theorem c4_too_large_dominates {σ : Type} (env : ScanEnv σ) (indexId : Nat)
    (state : SearchOnDiskState σ) (snap : SearchSnapshot σ)
    (hstate : state = .Backfilled snap ∨ state = .SnapshottedAt snap)
    (hver : env.isVersionCurrent snap = true)
    (hts : env.fastForwardTs snap.ts indexId ≤ env.stepTs)
    (hold : env.maxCheckpointAge ≤ env.stepTs - env.fastForwardTs snap.ts indexId)
    (hpos : 0 < env.indexSize indexId)
    (hlarge : env.softLimit < env.indexSize indexId) :
    needsBackfillOne env indexId state = .ok (some .TooLarge) := by
  rcases hstate with h | h <;> subst h <;>
    simp [needsBackfillOne, hver, hts, hold, hpos, hlarge, orOpt]

/-- C4 witness: index 60 (size 60 > limit 50) at fast-forward timestamp 800
(age 200 ≥ 100) is classified TooLarge. -/
theorem c4_too_large_dominates_witness :
    ((.SnapshottedAt ⟨800, .MultiSegment []⟩ : SearchOnDiskState Nat) =
        .Backfilled ⟨800, .MultiSegment []⟩ ∨
      (.SnapshottedAt ⟨800, .MultiSegment []⟩ : SearchOnDiskState Nat) =
        .SnapshottedAt ⟨800, .MultiSegment []⟩) ∧
    envS.isVersionCurrent ⟨800, .MultiSegment []⟩ = true ∧
    envS.fastForwardTs 800 60 ≤ envS.stepTs ∧
    envS.maxCheckpointAge ≤ envS.stepTs - envS.fastForwardTs 800 60 ∧
    0 < envS.indexSize 60 ∧
    envS.softLimit < envS.indexSize 60 ∧
    needsBackfillOne envS 60 (.SnapshottedAt ⟨800, .MultiSegment []⟩) =
      .ok (some .TooLarge) :=
  ⟨Or.inr rfl, by decide, by decide, by decide, by decide, by decide,
    c4_too_large_dominates envS 60 _ ⟨800, .MultiSegment []⟩ (Or.inr rfl)
      (by decide) (by decide) (by decide) (by decide) (by decide)⟩

/-- C5: an index in `Backfilled` or `SnapshottedAt` state whose ready size is
0 is never classified TooOld, whatever its age, and can never be TooLarge
either, so no job is emitted for it. -/
theorem c5_empty_index_no_job {σ : Type} (env : ScanEnv σ) (indexId : Nat)
    (state : SearchOnDiskState σ) (snap : SearchSnapshot σ)
    (hstate : state = .Backfilled snap ∨ state = .SnapshottedAt snap)
    (hver : env.isVersionCurrent snap = true)
    (hts : env.fastForwardTs snap.ts indexId ≤ env.stepTs)
    (hzero : env.indexSize indexId = 0) :
    needsBackfillOne env indexId state = .ok none := by
  rcases hstate with h | h <;> subst h <;>
    simp [needsBackfillOne, hver, hts, hzero, orOpt]

/-- C5 witness: index 0 (size 0) at fast-forward timestamp 1 — age 999, far
beyond the 100 threshold — yields no job. -/
theorem c5_empty_index_no_job_witness :
    ((.Backfilled ⟨1, .MultiSegment []⟩ : SearchOnDiskState Nat) =
        .Backfilled ⟨1, .MultiSegment []⟩ ∨
      (.Backfilled ⟨1, .MultiSegment []⟩ : SearchOnDiskState Nat) =
        .SnapshottedAt ⟨1, .MultiSegment []⟩) ∧
    envS.isVersionCurrent ⟨1, .MultiSegment []⟩ = true ∧
    envS.fastForwardTs 1 0 ≤ envS.stepTs ∧
    envS.indexSize 0 = 0 ∧
    needsBackfillOne envS 0 (.Backfilled ⟨1, .MultiSegment []⟩) = .ok none :=
  ⟨Or.inl rfl, by decide, by decide, by decide,
    c5_empty_index_no_job envS 0 _ ⟨1, .MultiSegment []⟩ (Or.inl rfl)
      (by decide) (by decide) (by decide)⟩

/-- C6: when some index reaching the age check has a fast-forward timestamp
beyond the scan's step timestamp, `needs_backfill` returns an error and no job
list at all — no partial list of previously classified jobs. -/
theorem c6_fast_forward_violation_aborts {σ : Type} (env : ScanEnv σ)
    (indexes : List (Nat × SearchOnDiskState σ)) (indexId : Nat)
    (state : SearchOnDiskState σ) (snap : SearchSnapshot σ)
    (hstate : state = .Backfilled snap ∨ state = .SnapshottedAt snap)
    (hmem : (indexId, state) ∈ indexes)
    (hver : env.isVersionCurrent snap = true)
    (hts : env.stepTs < env.fastForwardTs snap.ts indexId) :
    needsBackfillScan env indexes = .error () := by
  apply needsBackfillScan_error_of_mem env indexes indexId state hmem
  rcases hstate with h | h <;> subst h <;>
    simp [needsBackfillOne, hver, Nat.not_le.mpr hts]

/-- C6 witness: a two-index scan in which the second index's fast-forward
timestamp 2000 exceeds the step timestamp 1000 aborts entirely, even though
the first index would classify cleanly. -/
theorem c6_fast_forward_violation_aborts_witness :
    ((.SnapshottedAt ⟨2000, .MultiSegment []⟩ : SearchOnDiskState Nat) =
        .Backfilled ⟨2000, .MultiSegment []⟩ ∨
      (.SnapshottedAt ⟨2000, .MultiSegment []⟩ : SearchOnDiskState Nat) =
        .SnapshottedAt ⟨2000, .MultiSegment []⟩) ∧
    (60, (.SnapshottedAt ⟨2000, .MultiSegment []⟩ : SearchOnDiskState Nat)) ∈
      [(0, (.SnapshottedAt ⟨800, .MultiSegment []⟩ : SearchOnDiskState Nat)),
        (60, .SnapshottedAt ⟨2000, .MultiSegment []⟩)] ∧
    envS.isVersionCurrent ⟨2000, .MultiSegment []⟩ = true ∧
    envS.stepTs < envS.fastForwardTs 2000 60 ∧
    needsBackfillScan envS
      [(0, .SnapshottedAt ⟨800, .MultiSegment []⟩),
        (60, .SnapshottedAt ⟨2000, .MultiSegment []⟩)] = .error () :=
  ⟨Or.inr rfl, by decide, by decide, by decide,
    c6_fast_forward_violation_aborts envS _ 60 _ ⟨2000, .MultiSegment []⟩
      (Or.inr rfl) (by decide) (by decide) (by decide)⟩

/-- C7: a `Backfilled` or `SnapshottedAt` index is classified VersionMismatch
exactly when its stored format version is stale, and a version-current
`Backfilled` index is classified exactly like a `SnapshottedAt` one — it falls
through to the age/size classification. -/
theorem c7_version_mismatch_iff {σ : Type} (env : ScanEnv σ) (indexId : Nat)
    (snap : SearchSnapshot σ) :
    needsBackfillOne env indexId (.Backfilled snap) =
      needsBackfillOne env indexId (.SnapshottedAt snap) ∧
    (needsBackfillOne env indexId (.Backfilled snap) = .ok (some .VersionMismatch) ↔
      env.isVersionCurrent snap = false) := by
  refine ⟨rfl, ?_⟩
  cases hcur : env.isVersionCurrent snap with
  | false => simp [needsBackfillOne, hcur]
  | true =>
    simp only [needsBackfillOne, hcur]
    constructor
    · intro h
      split at h
      case isTrue h2 => exact h2
      case isFalse h2 =>
        split at h
        · split at h <;> split at h <;> simp [orOpt] at h
        · exact Except.noConfusion h
    · intro h
      exact absurd h (by simp)

/-- Every element the budget scan yields comes from the underlying stream. -/
theorem mem_of_mem_runScan (θ : Nat) (s : List StreamElem) :
    ∀ (t : Nat) (nc : Option Nat) (e : StreamElem),
      e ∈ (runScan θ t nc s).1 → e ∈ s := by
  induction s with
  | nil => intro t nc e he; simp [runScan] at he
  | cons x rest ih =>
    intro t nc e he
    cases x with
    | ok d dts =>
      by_cases h : t + d.size ≤ θ
      · simp only [runScan, if_pos h] at he
        rcases List.mem_cons.mp he with h1 | h1
        · exact h1 ▸ List.mem_cons_self _ _
        · exact List.mem_cons_of_mem _ (ih _ _ _ h1)
      · simp [runScan, if_neg h] at he
    | err =>
      by_cases h : t ≤ θ
      · simp only [runScan, if_pos h] at he
        rcases List.mem_cons.mp he with h1 | h1
        · exact h1 ▸ List.mem_cons_self _ _
        · exact List.mem_cons_of_mem _ (ih _ _ _ h1)
      · simp [runScan, if_neg h] at he

/-- The scan never lets the total yielded document size exceed the budget. -/
theorem okSum_runScan_le (θ : Nat) (s : List StreamElem) :
    ∀ (t : Nat) (nc : Option Nat), t ≤ θ →
      t + okSum (runScan θ t nc s).1 ≤ θ := by
  induction s with
  | nil => intro t nc ht; simpa [runScan, okSum] using ht
  | cons x rest ih =>
    intro t nc ht
    cases x with
    | ok d dts =>
      by_cases h : t + d.size ≤ θ
      · have := ih (t + d.size) (some d.id) h
        simp only [runScan, if_pos h, okSum]
        omega
      · simpa [runScan, if_neg h, okSum] using ht
    | err =>
      by_cases h : t ≤ θ
      · have := ih t nc h
        simp only [runScan, if_pos h, okSum]
        omega
      · simpa [runScan, if_neg h, okSum] using ht

/-- `is_backfill_complete` stays `true` exactly when the whole stream fits the
budget: the running total is monotone, so it trips somewhere iff the full sum
of document sizes exceeds the threshold. -/
theorem runScan_complete_iff (θ : Nat) (s : List StreamElem) :
    ∀ (t : Nat) (nc : Option Nat), t ≤ θ →
      ((runScan θ t nc s).2.2 = true ↔ t + okSum s ≤ θ) := by
  induction s with
  | nil => intro t nc ht; simpa [runScan, okSum] using ht
  | cons x rest ih =>
    intro t nc ht
    cases x with
    | ok d dts =>
      by_cases h : t + d.size ≤ θ
      · have := ih (t + d.size) (some d.id) h
        simp only [runScan, if_pos h, okSum]
        constructor
        · intro hc; have := this.mp hc; omega
        · intro hc; exact this.mpr (by omega)
      · simp only [runScan, if_neg h, okSum]
        constructor
        · intro hc; exact absurd hc (by simp)
        · intro hc; omega
    | err =>
      by_cases h : t ≤ θ
      · have := ih t nc h
        simpa only [runScan, if_pos h, okSum] using this
      · exact absurd ht h

/-- The final `new_cursor` of the scan: the id of the last yielded document
when one exists, otherwise the starting cursor value.  Error elements never
advance it. -/
theorem runScan_cursor (θ : Nat) (s : List StreamElem) :
    ∀ (t : Nat) (nc : Option Nat),
      (runScan θ t nc s).2.1 =
        (match lastOk (runScan θ t nc s).1 with
          | some d => some d.id
          | none => nc) := by
  induction s with
  | nil => intro t nc; simp [runScan, lastOk]
  | cons x rest ih =>
    intro t nc
    cases x with
    | ok d dts =>
      by_cases h : t + d.size ≤ θ
      · have := ih (t + d.size) (some d.id)
        simp only [runScan, if_pos h, lastOk]
        rw [this]
        cases lastOk (runScan θ (t + d.size) (some d.id) rest).1 <;> simp
      · simp [runScan, if_neg h, lastOk]
    | err =>
      by_cases h : t ≤ θ
      · have := ih t nc
        simp only [runScan, if_pos h, lastOk]
        exact this
      · simp [runScan, if_neg h, lastOk]

/-- A stream fragment with at least one successfully read document has a last
document. -/
theorem lastOk_isSome_of_ok (l : List StreamElem)
    (hex : ∃ e ∈ l, e.isOk = true) : ∃ d, lastOk l = some d := by
  induction l with
  | nil => simp at hex
  | cons x rest ih =>
    cases x with
    | ok d dts =>
      cases hr : lastOk rest with
      | some d' => exact ⟨d', by simp [lastOk, hr]⟩
      | none => exact ⟨d, by simp [lastOk, hr]⟩
    | err =>
      rcases hex with ⟨e, he, hok⟩
      rcases List.mem_cons.mp he with h | h
      · subst h; simp [StreamElem.isOk] at hok
      · exact (by simpa [lastOk] using ih ⟨e, h, hok⟩)

/-- The last document of a stream fragment occurs in it. -/
theorem lastOk_mem (l : List StreamElem) (d : Doc) (h : lastOk l = some d) :
    ∃ dts, StreamElem.ok d dts ∈ l := by
  induction l with
  | nil => simp [lastOk] at h
  | cons x rest ih =>
    cases x with
    | ok d0 dts0 =>
      cases hr : lastOk rest with
      | some d' =>
        rw [lastOk, hr] at h
        simp at h
        subst h
        obtain ⟨dts, hmem⟩ := ih hr
        exact ⟨dts, List.mem_cons_of_mem _ hmem⟩
      | none =>
        rw [lastOk, hr] at h
        cases h
        exact ⟨dts0, List.mem_cons_self _ _⟩
    | err =>
      rw [lastOk] at h
      obtain ⟨dts, hmem⟩ := ih h
      exact ⟨dts, List.mem_cons_of_mem _ hmem⟩

/-- A stream fragment with no successfully read document has no last one. -/
theorem lastOk_eq_none (l : List StreamElem)
    (h : ∀ e ∈ l, e.isOk = false) : lastOk l = none := by
  induction l with
  | nil => rfl
  | cons x rest ih =>
    cases x with
    | ok d dts =>
      have := h _ (List.mem_cons_self _ _)
      simp [StreamElem.isOk] at this
    | err =>
      rw [lastOk]
      exact ih fun e he => h e (List.mem_cons_of_mem _ he)

/-- C1: for every IncrementalComplete build whose scanned stream yields at
least one document to the builder, the returned backfill_result carries
new_cursor = Some of the id of the last yielded document — strictly after the
input cursor in by-id order, error elements never advancing it — and
is_backfill_complete is true exactly when the stream drains without the
running size total exceeding the byte budget. -/
theorem c1_cursor_advances {σ ν μ S : Type} (env : BuildEnv σ ν μ S)
    (cursor : Option Nat) (backfillTs snapshotTs : Nat) (prev : List σ)
    (hstream : ∀ e ∈ env.streamDocs cursor backfillTs, streamOkAfter cursor e = true)
    (hyield : ∃ e ∈ (runScan env.threshold 0 none (env.streamDocs cursor backfillTs)).1,
      e.isOk = true) :
    ∃ d : Doc,
      lastOk (runScan env.threshold 0 none (env.streamDocs cursor backfillTs)).1 = some d ∧
      (buildOnThread env (.IncrementalComplete cursor backfillTs)
          snapshotTs prev).backfill_result =
        some ⟨some d.id,
          decide (okSum (env.streamDocs cursor backfillTs) ≤ env.threshold)⟩ ∧
      cursorLtB cursor d.id = true := by
  obtain ⟨d, hd⟩ := lastOk_isSome_of_ok _ hyield
  have hc := runScan_cursor env.threshold (env.streamDocs cursor backfillTs) 0 none
  rw [hd] at hc
  simp only at hc
  have hiff := runScan_complete_iff env.threshold (env.streamDocs cursor backfillTs) 0
    none (Nat.zero_le _)
  rw [Nat.zero_add] at hiff
  have hibc : (runScan env.threshold 0 none (env.streamDocs cursor backfillTs)).2.2 =
      decide (okSum (env.streamDocs cursor backfillTs) ≤ env.threshold) := by
    by_cases hp : okSum (env.streamDocs cursor backfillTs) ≤ env.threshold
    · rw [hiff.mpr hp]
      simp [hp]
    · rcases Bool.eq_false_or_eq_true
        ((runScan env.threshold 0 none (env.streamDocs cursor backfillTs)).2.2) with hb | hb
      · exact absurd (hiff.mp hb) hp
      · rw [hb]
        simp [hp]
  refine ⟨d, hd, ?_, ?_⟩
  · show some (⟨_, _⟩ : MultiSegmentBackfillResult) = _
    rw [hc, hibc]
  · obtain ⟨dts, hmem⟩ := lastOk_mem _ _ hd
    have hmem2 := mem_of_mem_runScan env.threshold (env.streamDocs cursor backfillTs)
      0 none _ hmem
    have := hstream _ hmem2
    simpa [streamOkAfter] using this

/-- C1 witness: budget 10, stream of documents (id 5, size 3), a read error,
then (id 7, size 4), input cursor 2: the run yields everything, ends with
new_cursor = Some 7 > 2 and is_backfill_complete = true. -/
theorem c1_cursor_advances_witness :
    (∀ e ∈ envW.streamDocs (some 2) 50, streamOkAfter (some 2) e = true) ∧
    (∃ e ∈ (runScan envW.threshold 0 none (envW.streamDocs (some 2) 50)).1,
      e.isOk = true) ∧
    ∃ d : Doc,
      lastOk (runScan envW.threshold 0 none (envW.streamDocs (some 2) 50)).1 = some d ∧
      (buildOnThread envW (.IncrementalComplete (some 2) 50) 50 [7, 8]).backfill_result =
        some ⟨some d.id, decide (okSum (envW.streamDocs (some 2) 50) ≤ envW.threshold)⟩ ∧
      cursorLtB (some 2) d.id = true :=
  ⟨by decide, by decide,
    c1_cursor_advances envW (some 2) 50 50 [7, 8] (by decide) (by decide)⟩

/-- C2 (amended): the sum of estimated document sizes over the documents
yielded in one IncrementalComplete run is at most
incremental_multipart_threshold_bytes; the bound need not be strict when
is_backfill_complete is false (the yielded total can fill the budget exactly
with the next document tripping it). -/
theorem c2_budget_respected {σ ν μ S : Type} (env : BuildEnv σ ν μ S)
    (cursor : Option Nat) (backfillTs : Nat) :
    okSum (runScan env.threshold 0 none (env.streamDocs cursor backfillTs)).1 ≤
      env.threshold := by
  have := okSum_runScan_le env.threshold (env.streamDocs cursor backfillTs) 0 none
    (Nat.zero_le _)
  omega

/-- C2 counterexample: with budget 10 and document sizes 10 then 1, the
IncrementalComplete run ends with is_backfill_complete = false while the
yielded total equals the budget exactly — the claimed strict inequality
fails. -/
theorem c2_strictness_counterexample :
    (buildOnThread envC2 (.IncrementalComplete none 0) 0 []).backfill_result =
      some ⟨some 1, false⟩ ∧
    okSum (runScan envC2.threshold 0 none (envC2.streamDocs none 0)).1 =
      envC2.threshold ∧
    ¬ okSum (runScan envC2.threshold 0 none (envC2.streamDocs none 0)).1 <
      envC2.threshold := by decide

/-- C10: for every IncrementalComplete build in which no document is yielded
within the byte budget (empty stream, first document already over budget, or
only error elements), the returned backfill_result is Some with
new_cursor = None: the input cursor is not echoed back even when it was
Some. -/
theorem c10_no_doc_cursor_none {σ ν μ S : Type} (env : BuildEnv σ ν μ S)
    (cursor : Option Nat) (backfillTs snapshotTs : Nat) (prev : List σ)
    (hnone : ∀ e ∈ (runScan env.threshold 0 none (env.streamDocs cursor backfillTs)).1,
      e.isOk = false) :
    (buildOnThread env (.IncrementalComplete cursor backfillTs)
        snapshotTs prev).backfill_result =
      some ⟨none, (runScan env.threshold 0 none (env.streamDocs cursor backfillTs)).2.2⟩ := by
  have hc := runScan_cursor env.threshold (env.streamDocs cursor backfillTs) 0 none
  rw [lastOk_eq_none _ hnone] at hc
  simp only at hc
  show some (⟨_, _⟩ : MultiSegmentBackfillResult) = _
  rw [hc]

/-- C10 witness: a stream holding a single read error with input cursor
Some 5: the run returns backfill_result Some with new_cursor = None, not the
input cursor. -/
theorem c10_no_doc_cursor_none_witness :
    (∀ e ∈ (runScan envE.threshold 0 none (envE.streamDocs (some 5) 50)).1,
      e.isOk = false) ∧
    (buildOnThread envE (.IncrementalComplete (some 5) 50) 50 []).backfill_result =
      some ⟨none, (runScan envE.threshold 0 none (envE.streamDocs (some 5) 50)).2.2⟩ :=
  ⟨by decide, c10_no_doc_cursor_none envE (some 5) 50 50 [] (by decide)⟩

/-- Folding the lifted statistics addition over fallible statistics succeeds
exactly when everything succeeded, and then computes the plain fold of the
values. -/
theorem foldl_addStatsE {S : Type} (add : S → S → S) :
    ∀ (l : List (Except Unit S)) (a : Except Unit S) (v : S),
      l.foldl (addStatsE add) a = .ok v →
      ∃ a0 vs, a = .ok a0 ∧ collectOk l = some vs ∧ v = vs.foldl add a0 := by
  intro l
  induction l with
  | nil =>
    intro a v h
    exact ⟨v, [], h, rfl, rfl⟩
  | cons x xs ih =>
    intro a v h
    rw [List.foldl_cons] at h
    obtain ⟨a1, vs, hax, hcoll, hv⟩ := ih _ _ h
    cases a with
    | error e => simp [addStatsE] at hax
    | ok a0 =>
      cases x with
      | error e => simp [addStatsE] at hax
      | ok x0 =>
        simp only [addStatsE, Except.ok.injEq] at hax
        refine ⟨a0, x0 :: vs, rfl, ?_, ?_⟩
        · simp [collectOk, hcoll]
        · rw [List.foldl_cons, hax]
          exact hv

/-- The assembler's total statistics, when they succeed and the empty
statistics value is a left identity of the addition, are the fold of the
addition over all segment statistics starting from the empty value. -/
theorem computeTotalStats_fold {σ ν μ S : Type} (env : BuildEnv σ ν μ S)
    (hid : ∀ s, env.addStats env.emptyStats s = s)
    (parts : List σ) (v : S)
    (h : computeTotalStats env parts = .ok v) :
    ∃ vals, collectOk (parts.map env.statistics) = some vals ∧
      v = vals.foldl env.addStats env.emptyStats := by
  cases parts with
  | nil =>
    refine ⟨[], rfl, ?_⟩
    simp only [computeTotalStats, List.map_nil, reduceList, Except.ok.injEq] at h
    simp [← h]
  | cons p ps =>
    simp only [computeTotalStats, List.map_cons, reduceList] at h
    obtain ⟨a0, vs, hstat, hcoll, hv⟩ := foldl_addStatsE env.addStats _ _ _ h
    refine ⟨a0 :: vs, ?_, ?_⟩
    · simp [collectOk, hstat, hcoll]
    · rw [List.foldl_cons, hid a0]
      exact hv

/-- C3: for a backfilling job whose stored backfill_snapshot_ts (when set) is
at most the fresh transaction's begin timestamp, the planner emits
IncrementalComplete anchored at that stored timestamp — only when none is
stored does it use the begin timestamp — and any successful build's
snapshot_ts equals that anchor: the anchor never advances across continuation
runs. -/
theorem c3_backfill_anchor {σ ν μ S : Type} (env : BuildEnv σ ν μ S)
    (bf : BackfillState σ)
    (hts : bf.backfill_snapshot_ts.getD env.beginTs ≤ env.beginTs) :
    planBuild env (.Backfilling bf) =
      .ok (bf.segments,
        .IncrementalComplete bf.cursor (bf.backfill_snapshot_ts.getD env.beginTs),
        bf.backfill_snapshot_ts.getD env.beginTs) ∧
    ∀ r : IndexBuildResult σ S,
      buildMultipartSegment env (.Backfilling bf) = .ok r →
      r.snapshot_ts = bf.backfill_snapshot_ts.getD env.beginTs := by
  have hplan : planBuild env (.Backfilling bf) =
      .ok (bf.segments,
        .IncrementalComplete bf.cursor (bf.backfill_snapshot_ts.getD env.beginTs),
        bf.backfill_snapshot_ts.getD env.beginTs) := by
    cases hb : bf.backfill_snapshot_ts with
    | none => simp [planBuild, hb, Except.map]
    | some t =>
      rw [hb] at hts
      simp only [Option.getD_some] at hts ⊢
      simp [planBuild, hb, priorTs, hts, Except.map]
  refine ⟨hplan, ?_⟩
  intro r hr
  unfold buildMultipartSegment at hr
  rw [hplan] at hr
  simp only at hr
  split at hr
  · exact Except.noConfusion hr
  · split at hr
    · exact Except.noConfusion hr
    · injection hr with h2
      subst h2
      rfl

/-- C3 witness: anchor 80 stored, begin timestamp 100: the plan and the result
timestamp are both 80. -/
theorem c3_backfill_anchor_witness :
    bfW.backfill_snapshot_ts.getD envW.beginTs ≤ envW.beginTs ∧
    (planBuild envW (.Backfilling bfW) =
      .ok (bfW.segments,
        .IncrementalComplete bfW.cursor (bfW.backfill_snapshot_ts.getD envW.beginTs),
        bfW.backfill_snapshot_ts.getD envW.beginTs) ∧
    ∀ r : IndexBuildResult Nat Nat,
      buildMultipartSegment envW (.Backfilling bfW) = .ok r →
      r.snapshot_ts = bfW.backfill_snapshot_ts.getD envW.beginTs) :=
  ⟨by decide, c3_backfill_anchor envW bfW (by decide)⟩

/-- C8: for every successful build, the output segment list is exactly the
updated previous segments in their input order (as returned by
upload_previous_segments), with the uploaded new segment — when one was built
— appended as the single last element; nothing is reordered, inserted
elsewhere, or dropped. -/
theorem c8_segment_order_stable {σ ν μ S : Type} (env : BuildEnv σ ν μ S)
    (state : SearchOnDiskState σ) (r : IndexBuildResult σ S)
    (h : buildMultipartSegment env state = .ok r) :
    ∃ prev bt newTs, planBuild env state = .ok (prev, bt, newTs) ∧
      r.data = .MultiSegment
        ((buildOnThread env bt newTs prev).updated_previous_segments ++
          ((buildOnThread env bt newTs prev).new_segment.map env.uploadNew).toList) := by
  unfold buildMultipartSegment at h
  cases hplan : planBuild env state with
  | error e => rw [hplan] at h; exact Except.noConfusion h
  | ok plan =>
    rw [hplan] at h
    simp only at h
    obtain ⟨prev, bt, newTs⟩ := plan
    refine ⟨prev, bt, newTs, rfl, ?_⟩
    split at h
    · exact Except.noConfusion h
    · split at h
      · exact Except.noConfusion h
      · injection h with h2
        subst h2
        rfl

/-- C8 witness: the Partial build of `stSnap` under `envW` keeps segments 1
and 2 in order and appends the uploaded new segment 43 last. -/
theorem c8_segment_order_stable_witness :
    buildMultipartSegment envW stSnap = .ok rSnap ∧
    ∃ prev bt newTs, planBuild envW stSnap = .ok (prev, bt, newTs) ∧
      rSnap.data = .MultiSegment
        ((buildOnThread envW bt newTs prev).updated_previous_segments ++
          ((buildOnThread envW bt newTs prev).new_segment.map envW.uploadNew).toList) :=
  ⟨rfl, c8_segment_order_stable envW stSnap rSnap rfl⟩

/-- C9: for every successful build, when the empty statistics value is a left
identity of the statistics addition, total_stats is the fold of the addition,
starting from the empty statistics, over the statistics of exactly the
segments in the output data; for an empty output segment set it is the empty
statistics value. -/
theorem c9_stats_additive {σ ν μ S : Type} (env : BuildEnv σ ν μ S)
    (state : SearchOnDiskState σ) (r : IndexBuildResult σ S) (parts : List σ)
    (hid : ∀ s, env.addStats env.emptyStats s = s)
    (h : buildMultipartSegment env state = .ok r)
    (hdata : r.data = .MultiSegment parts) :
    ∃ vals, collectOk (parts.map env.statistics) = some vals ∧
      r.total_stats = vals.foldl env.addStats env.emptyStats := by
  unfold buildMultipartSegment at h
  cases hplan : planBuild env state with
  | error e => rw [hplan] at h; exact Except.noConfusion h
  | ok plan =>
    rw [hplan] at h
    simp only at h
    split at h
    · exact Except.noConfusion h
    · split at h
      · exact Except.noConfusion h
      · rename_i t ht
        injection h with h2
        subst h2
        simp only [IndexBuildResult.data, SnapshotData.MultiSegment.injEq] at hdata
        subst hdata
        exact computeTotalStats_fold env hid _ _ ht

/-- C9 witness: the build of `stSnap` under `envW` outputs segments 1, 2, 43
with numeric statistics; total_stats 46 is the fold of addition over them from
the empty value 0. -/
theorem c9_stats_additive_witness :
    (∀ s, envW.addStats envW.emptyStats s = s) ∧
    buildMultipartSegment envW stSnap = .ok rSnap ∧
    rSnap.data = .MultiSegment [1, 2, 43] ∧
    ∃ vals, collectOk ([1, 2, 43].map envW.statistics) = some vals ∧
      rSnap.total_stats = vals.foldl envW.addStats envW.emptyStats :=
  ⟨fun s => Nat.zero_add s, rfl, rfl,
    c9_stats_additive envW stSnap rSnap [1, 2, 43] (fun s => Nat.zero_add s) rfl rfl⟩

end SearchFlusher
